import Mathlib

/-!
Verification of the food-cost calculator (src/app.py).

The core logic of the program is embedded shallowly:
numeric values are modelled as exact rationals (the spec demands full
precision with no rounding through the pipeline), Python exceptions are
modelled with an explicit error type carried by Except, and the SQLite
tables are modelled as Lean lists in insertion (rowid) order.
-/

namespace FoodCost

/-- Error outcomes of the core.  The first five name the spec's request-scoped
error taxonomy; zeroDivision models Python's ZeroDivisionError, which is
raised by float division when the divisor is zero and is not part of the
taxonomy. -/
inductive Err where
  | unsupportedUnit
  | incompatibleUnitGroup
  | invalidPrice
  | invalidYield
  | invalidPortions
  | zeroDivision
  deriving DecidableEq, Repr

/-- The fixed conversion table UNIT_FACTORS of app.py: each supported unit
maps to its measurement-type group and its factor to the group base unit. -/
def UNIT_FACTORS (u : String) : Option (String × ℚ) :=
  if u = "pounds" then some ("weight", 16)
  else if u = "ounces" then some ("weight", 1)
  else if u = "fluid ounces" then some ("volume", 29.5735)
  else if u = "milliliters" then some ("volume", 1)
  else if u = "liters" then some ("volume", 1000)
  else if u = "quarts" then some ("volume", 946.353)
  else if u = "gallons" then some ("volume", 3785.41)
  else if u = "each" then some ("count", 1)
  else none

/-- convert_quantity of app.py: membership check first (Unsupported unit),
then the group check, then quantity * from_factor / to_factor.  A zero
divisor would raise ZeroDivisionError in Python, so it is modelled as an
explicit error branch (no table factor is zero, so the branch is dead). -/
def convert_quantity (quantity : ℚ) (from_unit to_unit : String) : Except Err ℚ :=
  match UNIT_FACTORS from_unit, UNIT_FACTORS to_unit with
  | some (from_group, from_factor), some (to_group, to_factor) =>
    if from_group ≠ to_group then
      .error .incompatibleUnitGroup
    else if to_factor = 0 then
      .error .zeroDivision
    else
      .ok (quantity * from_factor / to_factor)
  | _, _ => .error .unsupportedUnit

theorem UNIT_FACTORS_factor_ne_zero {u g : String} {f : ℚ}
    (h : UNIT_FACTORS u = some (g, f)) : f ≠ 0 := by
  unfold UNIT_FACTORS at h
  split_ifs at h <;> simp_all <;> norm_num [← h.2]

theorem convert_formula_aux (q : ℚ) (a b ga gb : String) (fa fb : ℚ)
    (ha : UNIT_FACTORS a = some (ga, fa)) (hb : UNIT_FACTORS b = some (gb, fb))
    (hg : ga = gb) : convert_quantity q a b = .ok (q * fa / fb) := by
  have hfb := UNIT_FACTORS_factor_ne_zero hb
  simp [convert_quantity, ha, hb, hg, hfb]

theorem convert_error_aux (q : ℚ) {a b ga gb : String} {fa fb : ℚ}
    (ha : UNIT_FACTORS a = some (ga, fa)) (hb : UNIT_FACTORS b = some (gb, fb))
    (hg : ga ≠ gb) : convert_quantity q a b = .error .incompatibleUnitGroup := by
  simp [convert_quantity, ha, hb, hg]

/-- C1: for units a, b of the same group, convert returns
q * factor(a) / factor(b), with exactly the table's factors; in particular
convert 1 pounds ounces = 16. -/
theorem convert_same_group_formula :
    (∀ (q : ℚ) (a b ga gb : String) (fa fb : ℚ),
      UNIT_FACTORS a = some (ga, fa) → UNIT_FACTORS b = some (gb, fb) →
      ga = gb → convert_quantity q a b = .ok (q * fa / fb)) ∧
    UNIT_FACTORS "pounds" = some ("weight", 16) ∧
    UNIT_FACTORS "ounces" = some ("weight", 1) ∧
    UNIT_FACTORS "fluid ounces" = some ("volume", 29.5735) ∧
    UNIT_FACTORS "milliliters" = some ("volume", 1) ∧
    UNIT_FACTORS "liters" = some ("volume", 1000) ∧
    UNIT_FACTORS "quarts" = some ("volume", 946.353) ∧
    UNIT_FACTORS "gallons" = some ("volume", 3785.41) ∧
    UNIT_FACTORS "each" = some ("count", 1) ∧
    convert_quantity 1 "pounds" "ounces" = .ok 16 := by
  refine ⟨convert_formula_aux, rfl, rfl, rfl, rfl, rfl, rfl, rfl, rfl, ?_⟩
  rw [convert_formula_aux 1 "pounds" "ounces" "weight" "weight" 16 1 rfl rfl rfl]
  norm_num

/-- Witness for C1's quantified part at a concrete input. -/
theorem convert_same_group_formula_witness :
    convert_quantity 3 "liters" "quarts" = .ok (3 * 1000 / 946.353) :=
  convert_same_group_formula.1 3 "liters" "quarts" "volume" "volume" 1000 946.353
    rfl rfl rfl

/-- C9: converting a quantity to its own unit is the identity, exactly. -/
theorem convert_identity (q : ℚ) (u g : String) (f : ℚ)
    (h : UNIT_FACTORS u = some (g, f)) :
    convert_quantity q u u = .ok q := by
  have hf := UNIT_FACTORS_factor_ne_zero h
  simp [convert_quantity, h, hf, mul_div_assoc, div_self hf]

/-- Witness for C9 at a concrete unit and quantity. -/
theorem convert_identity_witness :
    convert_quantity 7 "gallons" "gallons" = .ok 7 :=
  convert_identity 7 "gallons" "volume" 3785.41 rfl

/-- C6: convert fails with UnsupportedUnit when either unit is outside the
table, fails with IncompatibleUnitGroup when both are in the table but their
groups differ, and converting pounds to any volume unit always fails with
IncompatibleUnitGroup. -/
theorem convert_error_cases :
    (∀ (q : ℚ) (a b : String),
      UNIT_FACTORS a = none ∨ UNIT_FACTORS b = none →
      convert_quantity q a b = .error .unsupportedUnit) ∧
    (∀ (q : ℚ) (a b ga gb : String) (fa fb : ℚ),
      UNIT_FACTORS a = some (ga, fa) → UNIT_FACTORS b = some (gb, fb) →
      ga ≠ gb → convert_quantity q a b = .error .incompatibleUnitGroup) ∧
    (∀ (q : ℚ) (v : String),
      v ∈ ["fluid ounces", "milliliters", "liters", "quarts", "gallons"] →
      convert_quantity q "pounds" v = .error .incompatibleUnitGroup) := by
  refine ⟨?_, ?_, ?_⟩
  · intro q a b h
    rcases h with h | h
    · simp [convert_quantity, h]
    · cases ha : UNIT_FACTORS a with
      | none => simp [convert_quantity, ha, h]
      | some p => cases p with
        | mk g f => simp [convert_quantity, ha, h]
  · intro q a b ga gb fa fb ha hb hg
    simp [convert_quantity, ha, hb, hg]
  · intro q v hv
    have hp : UNIT_FACTORS "pounds" = some ("weight", 16) := rfl
    fin_cases hv <;> exact convert_error_aux q hp rfl (by decide)

/-- Witness for C6: each error case exercised at a concrete input. -/
theorem convert_error_cases_witness :
    convert_quantity 2 "grams" "ounces" = .error .unsupportedUnit ∧
    convert_quantity 2 "pounds" "milliliters" = .error .incompatibleUnitGroup ∧
    convert_quantity 5 "pounds" "gallons" = .error .incompatibleUnitGroup :=
  ⟨convert_error_cases.1 2 "grams" "ounces" (Or.inl rfl),
   convert_error_cases.2.1 2 "pounds" "milliliters" "weight" "volume" 16 1
     rfl rfl (by decide),
   convert_error_cases.2.2 5 "gallons" (by decide)⟩

/-- Whitespace characters removed by str.strip in Python with no argument
(the ASCII ones; the claims never exercise non-ASCII whitespace). -/
def isPySpace (c : Char) : Bool :=
  c = ' ' ∨ c = '\t' ∨ c = '\n' ∨ c = '\r' ∨ c = '\x0b' ∨ c = '\x0c'

/-- str.strip of Python: drop leading and trailing whitespace. -/
def pyStripList (l : List Char) : List Char :=
  ((l.dropWhile isPySpace).reverse.dropWhile isPySpace).reverse

/-- Split a character list into its longest digit prefix and the rest. -/
def takeDigits (l : List Char) : List Char × List Char :=
  match l with
  | [] => ([], [])
  | c :: t =>
    if c.isDigit then
      let (d, r) := takeDigits t
      (c :: d, r)
    else ([], c :: t)

/-- Numeric value of a digit string, most significant digit first. -/
def digitsVal (l : List Char) : ℕ :=
  l.foldl (fun a c => a * 10 + (c.toNat - 48)) 0

/-- The exponent part of a float literal after the letter e: an optional
sign and a nonempty digit run consuming the whole rest. -/
def parseExpPart (t : List Char) : Option ℤ :=
  let (esgn, t1) : ℤ × List Char :=
    match t with
    | '+' :: t2 => (1, t2)
    | '-' :: t2 => (-1, t2)
    | t2 => (1, t2)
  let (ed, r) := takeDigits t1
  if ed.isEmpty ∨ ¬ r.isEmpty then none
  else some (esgn * (digitsVal ed : ℤ))

/-- The float builtin of Python (an external collaborator of app.py),
modelled on ordinary decimal literals: optional sign, digits with an
optional decimal point (at least one digit overall), optional exponent.
The special spellings inf and nan and digit underscores, which the program
never relies on, are not modelled. -/
def parseFloatChars (cs : List Char) : Option ℚ :=
  let (sgn, cs1) : ℚ × List Char :=
    match cs with
    | '+' :: t => (1, t)
    | '-' :: t => (-1, t)
    | t => (1, t)
  let (ip, cs2) := takeDigits cs1
  let (fp, cs3) :=
    match cs2 with
    | '.' :: t => takeDigits t
    | _ => ([], cs2)
  if ip.isEmpty ∧ fp.isEmpty then none
  else
    let mant : ℚ := (digitsVal ip : ℚ) + (digitsVal fp : ℚ) / (10 : ℚ) ^ fp.length
    match cs3 with
    | [] => some (sgn * mant)
    | c :: t =>
      if c = 'e' ∨ c = 'E' then
        match parseExpPart t with
        | some e => some (sgn * mant * (10 : ℚ) ^ e)
        | none => none
      else none

/-- parse_price of app.py: raw.replace removes every dollar sign (not only
a leading one), str.strip removes surrounding whitespace, and the float
builtin parses the remainder; its ValueError on malformed input is the
failure the spec names InvalidPrice. -/
def parse_price (raw : String) : Except Err ℚ :=
  match parseFloatChars (pyStripList (raw.data.filter (fun c => c ≠ '$'))) with
  | some v => .ok v
  | none => .error .invalidPrice

/-- Drop one leading dollar sign, if present. -/
def dropLeadingDollar (l : List Char) : List Char :=
  match l with
  | [] => []
  | c :: t => if c = '$' then t else c :: t

/-- Modelled from the spec: the spec describes priceFromString as stripping
a leading currency symbol and surrounding whitespace before parsing; this
definition follows those words, to be compared with parse_price. -/
def parse_price_specLeading (raw : String) : Except Err ℚ :=
  match parseFloatChars (dropLeadingDollar (pyStripList raw.data)) with
  | some v => .ok v
  | none => .error .invalidPrice

theorem mem_pyStripList {c : Char} {l : List Char} (h : c ∈ pyStripList l) :
    c ∈ l := by
  unfold pyStripList at h
  rw [List.mem_reverse] at h
  have h2 := (List.dropWhile_sublist isPySpace).mem h
  rw [List.mem_reverse] at h2
  exact (List.dropWhile_sublist isPySpace).mem h2

/-- The three derived costs of one recipe line item (app.py lines 229-231). -/
structure LineItemCost where
  ap_cost_per_unit : ℚ
  ep_cost_per_unit : ℚ
  extended_cost : ℚ
  deriving DecidableEq, Repr

/-- The line-item cost computation inlined in save_recipe (app.py lines
228-231): convert the AP quantity into EP units, divide the AP price by it,
divide by yield_percent / 100, multiply by the EP quantity.  Python raises
ZeroDivisionError when either divisor is zero; both divisions are modelled
with an explicit zeroDivision branch, in the order the code reaches them. -/
def computeLineItem (ep_quantity : ℚ) (ep_unit : String) (yield_percent : ℚ)
    (ap_quantity : ℚ) (ap_unit : String) (ap_price : ℚ) :
    Except Err LineItemCost :=
  match convert_quantity ap_quantity ap_unit ep_unit with
  | .error e => .error e
  | .ok converted_ap_qty =>
    if converted_ap_qty = 0 then .error .zeroDivision
    else
      let ap_cost_per_unit := ap_price / converted_ap_qty
      if yield_percent / 100 = 0 then .error .zeroDivision
      else
        let ep_cost_per_unit := ap_cost_per_unit / (yield_percent / 100)
        .ok ⟨ap_cost_per_unit, ep_cost_per_unit, ep_cost_per_unit * ep_quantity⟩

/-- The three derived totals of a recipe (app.py lines 250-252). -/
structure RecipeCost where
  total_cost : ℚ
  cost_per_portion : ℚ
  total_with_spice : ℚ
  deriving DecidableEq, Repr

/-- The recipe aggregation inlined in save_recipe (app.py lines 190, 232,
250-252): total_cost accumulates the extended costs left to right from 0.0,
cost_per_portion divides by portions (ZeroDivisionError when portions is 0),
and total_with_spice is cost_per_portion * spice_factor + cost_per_portion. -/
def computeRecipe (extended_costs : List ℚ) (portions : ℚ)
    (spice_factor_percent : ℚ) : Except Err RecipeCost :=
  let total_cost := extended_costs.foldl (· + ·) 0
  if portions = 0 then .error .zeroDivision
  else
    let cost_per_portion := total_cost / portions
    let spice_factor := spice_factor_percent / 100
    .ok ⟨total_cost, cost_per_portion,
      cost_per_portion * spice_factor + cost_per_portion⟩

theorem foldl_add_eq_sum (l : List ℚ) (a : ℚ) : l.foldl (· + ·) a = a + l.sum := by
  induction l generalizing a with
  | nil => simp
  | cons x xs ih => simp [List.foldl_cons, ih, add_assoc]

theorem computeLineItem_aux (ep_quantity : ℚ) (ep_unit : String)
    (yield_percent : ℚ) (ap_quantity : ℚ) (ap_unit : String) (ap_price : ℚ)
    (c : ℚ) (hc : convert_quantity ap_quantity ap_unit ep_unit = .ok c)
    (hc0 : c ≠ 0) (hy : yield_percent ≠ 0) :
    computeLineItem ep_quantity ep_unit yield_percent ap_quantity ap_unit
        ap_price =
      .ok ⟨ap_price / c, ap_price / c / (yield_percent / 100),
        ap_price / c / (yield_percent / 100) * ep_quantity⟩ := by
  have hy100 : yield_percent / 100 ≠ 0 := by
    simp [div_eq_zero_iff, hy]
  simp [computeLineItem, hc, hc0, hy100]

/-- C2: the line-item computation divides the AP price by the converted AP
quantity, divides by yield_percent / 100, and multiplies by the EP quantity;
in particular 10 ounces at 80 percent yield from 1 pound at price 2 gives
converted quantity 16, AP cost 0.125, EP cost 0.15625, extended cost 1.5625. -/
theorem computeLineItem_formula :
    (∀ (ep_quantity : ℚ) (ep_unit : String) (yield_percent ap_quantity : ℚ)
        (ap_unit : String) (ap_price c : ℚ),
      convert_quantity ap_quantity ap_unit ep_unit = .ok c → c ≠ 0 →
      yield_percent ≠ 0 →
      computeLineItem ep_quantity ep_unit yield_percent ap_quantity ap_unit
          ap_price =
        .ok ⟨ap_price / c, ap_price / c / (yield_percent / 100),
          ap_price / c / (yield_percent / 100) * ep_quantity⟩) ∧
    convert_quantity 1 "pounds" "ounces" = .ok 16 ∧
    computeLineItem 10 "ounces" 80 1 "pounds" 2 =
      .ok ⟨0.125, 0.15625, 1.5625⟩ := by
  refine ⟨fun e eu y aq au p c hc hc0 hy =>
    computeLineItem_aux e eu y aq au p c hc hc0 hy, ?_, ?_⟩
  · rw [convert_formula_aux 1 "pounds" "ounces" "weight" "weight" 16 1 rfl rfl rfl]
    norm_num
  · have h16 : convert_quantity 1 "pounds" "ounces" = .ok 16 := by
      rw [convert_formula_aux 1 "pounds" "ounces" "weight" "weight" 16 1 rfl rfl rfl]
      norm_num
    rw [computeLineItem_aux 10 "ounces" 80 1 "pounds" 2 16 h16 (by norm_num)
      (by norm_num)]
    norm_num

/-- Witness for C2's quantified part at a concrete input. -/
theorem computeLineItem_formula_witness :
    computeLineItem 4 "ounces" 50 2 "pounds" 8 =
      .ok ⟨8 / 32, 8 / 32 / (50 / 100), 8 / 32 / (50 / 100) * 4⟩ :=
  computeLineItem_formula.1 4 "ounces" 50 2 "pounds" 8 32
    (by rw [convert_formula_aux 2 "pounds" "ounces" "weight" "weight" 16 1 rfl rfl rfl]
        norm_num)
    (by norm_num) (by norm_num)

/-- C3: the recipe aggregation returns the sum of the extended costs, that
sum divided by portions, and the per-portion cost scaled by
1 + spice_factor_percent / 100; in particular one item of extended cost
1.5625 with 5 portions and spice factor 10 gives 1.5625, 0.3125, 0.34375. -/
theorem computeRecipe_formula :
    (∀ (extended_costs : List ℚ) (portions spice_factor_percent : ℚ),
      portions ≠ 0 →
      computeRecipe extended_costs portions spice_factor_percent =
        .ok ⟨extended_costs.sum, extended_costs.sum / portions,
          extended_costs.sum / portions * (1 + spice_factor_percent / 100)⟩) ∧
    computeRecipe [1.5625] 5 10 = .ok ⟨1.5625, 0.3125, 0.34375⟩ := by
  constructor
  · intro l portions s hp
    simp only [computeRecipe, foldl_add_eq_sum, zero_add, if_neg hp,
      Except.ok.injEq, RecipeCost.mk.injEq]
    refine ⟨trivial, trivial, ?_⟩
    ring
  · simp only [computeRecipe, List.foldl]
    norm_num

/-- Witness for C3's quantified part at a concrete input. -/
theorem computeRecipe_formula_witness :
    computeRecipe [2, 3] 2 50 =
      .ok ⟨List.sum [2, 3], List.sum [2, 3] / 2,
        List.sum [2, 3] / 2 * (1 + 50 / 100)⟩ :=
  computeRecipe_formula.1 [2, 3] 2 50 (by norm_num)

theorem computeLineItem_zero_yield_aux (ep_quantity : ℚ) (ep_unit : String)
    (ap_quantity : ℚ) (ap_unit : String) (ap_price c : ℚ)
    (hc : convert_quantity ap_quantity ap_unit ep_unit = .ok c) (hc0 : c ≠ 0) :
    computeLineItem ep_quantity ep_unit 0 ap_quantity ap_unit ap_price =
      .error .zeroDivision := by
  simp [computeLineItem, hc, hc0]

theorem convert_one_pound_ounces : convert_quantity 1 "pounds" "ounces" = .ok 16 := by
  rw [convert_formula_aux 1 "pounds" "ounces" "weight" "weight" 16 1 rfl rfl rfl]
  norm_num

/-- C4 counterexample: at yield_percent 0 the line-item computation fails
with the unguarded division-by-zero error, not with InvalidYield, and at
portions 0 the recipe aggregation fails with the unguarded division-by-zero
error, not with InvalidPortions. -/
theorem yield_portions_error_counterexample :
    computeLineItem 10 "ounces" 0 1 "pounds" 2 ≠ .error .invalidYield ∧
    computeLineItem 10 "ounces" 0 1 "pounds" 2 = .error .zeroDivision ∧
    computeRecipe [1.5625] 0 10 ≠ .error .invalidPortions ∧
    computeRecipe [1.5625] 0 10 = .error .zeroDivision := by
  have h := computeLineItem_zero_yield_aux 10 "ounces" 1 "pounds" 2 16
    convert_one_pound_ounces (by norm_num)
  have hr : computeRecipe [(1.5625 : ℚ)] 0 10 = .error .zeroDivision := by
    simp [computeRecipe]
  rw [h, hr]
  refine ⟨by simp, rfl, by simp, rfl⟩

/-- C4 amended: inputs with yield_percent 0 make the line-item computation
fail with the unguarded division-by-zero error (never a silently clamped or
infinite cost), inputs with portions 0 make the recipe aggregation fail the
same way, and that error is neither InvalidYield nor InvalidPortions. -/
theorem zero_yield_portions_amended :
    (∀ (ep_quantity : ℚ) (ep_unit : String) (ap_quantity : ℚ)
        (ap_unit : String) (ap_price c : ℚ),
      convert_quantity ap_quantity ap_unit ep_unit = .ok c → c ≠ 0 →
      computeLineItem ep_quantity ep_unit 0 ap_quantity ap_unit ap_price =
        .error .zeroDivision) ∧
    (∀ (extended_costs : List ℚ) (spice_factor_percent : ℚ),
      computeRecipe extended_costs 0 spice_factor_percent =
        .error .zeroDivision) ∧
    Err.zeroDivision ≠ Err.invalidYield ∧
    Err.zeroDivision ≠ Err.invalidPortions := by
  refine ⟨computeLineItem_zero_yield_aux, ?_, by simp, by simp⟩
  intro l s
  simp [computeRecipe]

/-- Witness for C4's amended quantified part at a concrete input. -/
theorem zero_yield_portions_amended_witness :
    computeLineItem 3 "ounces" 0 2 "ounces" 5 = .error .zeroDivision :=
  zero_yield_portions_amended.1 3 "ounces" 2 "ounces" 5 2
    (by rw [convert_formula_aux 2 "ounces" "ounces" "weight" "weight" 1 1 rfl rfl rfl]
        norm_num)
    (by norm_num)

/-- C10: a line item whose AP quantity is 0 (so the converted AP quantity is
0) makes the cost computation divide the AP price by zero and fail with the
unguarded division-by-zero error, which is outside the spec's error
taxonomy, instead of returning a cost; and converting 0 between any two
same-group units does yield 0. -/
theorem zero_ap_quantity_division :
    (∀ (ep_quantity : ℚ) (ep_unit : String) (yield_percent : ℚ)
        (ap_unit : String) (ap_price : ℚ),
      convert_quantity 0 ap_unit ep_unit = .ok 0 →
      computeLineItem ep_quantity ep_unit yield_percent 0 ap_unit ap_price =
        .error .zeroDivision) ∧
    (∀ (a b ga gb : String) (fa fb : ℚ),
      UNIT_FACTORS a = some (ga, fa) → UNIT_FACTORS b = some (gb, fb) →
      ga = gb → convert_quantity 0 a b = .ok 0) ∧
    Err.zeroDivision ≠ Err.unsupportedUnit ∧
    Err.zeroDivision ≠ Err.incompatibleUnitGroup ∧
    Err.zeroDivision ≠ Err.invalidPrice ∧
    Err.zeroDivision ≠ Err.invalidYield ∧
    Err.zeroDivision ≠ Err.invalidPortions := by
  refine ⟨?_, ?_, by simp, by simp, by simp, by simp, by simp⟩
  · intro e eu y au p hc
    simp [computeLineItem, hc]
  · intro a b ga gb fa fb ha hb hg
    rw [convert_formula_aux 0 a b ga gb fa fb ha hb hg]
    norm_num

/-- Witness for C10's quantified parts at a concrete input. -/
theorem zero_ap_quantity_division_witness :
    computeLineItem 10 "ounces" 80 0 "pounds" 2 = .error .zeroDivision :=
  zero_ap_quantity_division.1 10 "ounces" 80 "pounds" 2
    (zero_ap_quantity_division.2.1 "pounds" "ounces" "weight" "weight" 16 1
      rfl rfl rfl)

theorem parse_price_digits_50 :
    parse_price "$12.50" = .ok 12.5 := by
  have harg : pyStripList ("$12.50".data.filter (fun c => c ≠ '$')) =
      ['1', '2', '.', '5', '0'] := rfl
  have hpf : parseFloatChars ['1', '2', '.', '5', '0'] =
      some (1 * (((12 : ℕ) : ℚ) + ((50 : ℕ) : ℚ) / (10 : ℚ) ^ (2 : ℕ))) := rfl
  simp only [parse_price, harg, hpf]
  norm_num

/-- C7 counterexample: parse_price removes a dollar sign anywhere in the
input, so on an input with an interior dollar sign it parses a number where
the spec's leading-symbol reading rejects the input. -/
theorem parse_price_leading_counterexample :
    parse_price "1$2" = .ok 12 ∧
    parse_price_specLeading "1$2" = .error .invalidPrice ∧
    parse_price "1$2" ≠ parse_price_specLeading "1$2" := by
  have harg : pyStripList ("1$2".data.filter (fun c => c ≠ '$')) =
      ['1', '2'] := rfl
  have hpf : parseFloatChars ['1', '2'] =
      some (1 * (((12 : ℕ) : ℚ) + ((0 : ℕ) : ℚ) / (10 : ℚ) ^ (0 : ℕ))) := rfl
  have h1 : parse_price "1$2" = .ok 12 := by
    simp only [parse_price, harg, hpf]
    norm_num
  have h2 : parse_price_specLeading "1$2" = .error .invalidPrice := rfl
  refine ⟨h1, h2, ?_⟩
  rw [h1, h2]
  simp

/-- C7 amended: parse_price removes every dollar sign (wherever it occurs)
and surrounding whitespace and parses the remainder, failing with
InvalidPrice on malformed input; on inputs containing no dollar sign at all
it agrees with the spec's leading-symbol reading, and the spec's two
examples hold. -/
theorem parse_price_amended :
    parse_price "$12.50" = .ok 12.5 ∧
    parse_price "abc" = .error .invalidPrice ∧
    (∀ raw : String, (∀ c ∈ raw.data, c ≠ '$') →
      parse_price raw = parse_price_specLeading raw) := by
  refine ⟨parse_price_digits_50, rfl, ?_⟩
  intro raw h
  unfold parse_price parse_price_specLeading
  have hf : raw.data.filter (fun c => c ≠ '$') = raw.data :=
    List.filter_eq_self.mpr (fun a ha => by simpa using h a ha)
  rw [hf]
  have hd : dropLeadingDollar (pyStripList raw.data) = pyStripList raw.data := by
    cases hl : pyStripList raw.data with
    | nil => rfl
    | cons c t =>
      have hc : c ∈ pyStripList raw.data := by
        rw [hl]; exact List.mem_cons_self c t
      have hne : c ≠ '$' := h c (mem_pyStripList hc)
      simp [dropLeadingDollar, hne]
  rw [hd]

/-- Witness for C7's amended quantified part at a concrete input. -/
theorem parse_price_amended_witness :
    parse_price "abc" = parse_price_specLeading "abc" :=
  parse_price_amended.2.2 "abc" (by decide)

/-- str.strip of Python on a whole string. -/
def pyStrip (s : String) : String := ⟨pyStripList s.data⟩

/-- One row of the ingredients table (app.py lines 48-57). -/
structure Ingredient where
  id : ℕ
  name : String
  ap_quantity : ℚ
  ap_unit : String
  ap_price : ℚ
  deriving DecidableEq, Repr

/-- The lower SQL function of SQLite, which folds ASCII letters only. -/
def lowerChar (c : Char) : Char :=
  if 'A' ≤ c ∧ c ≤ 'Z' then Char.ofNat (c.toNat + 32) else c

/-- lower applied to a whole name. -/
def lowerStr (s : String) : String := ⟨s.data.map lowerChar⟩

/-- The SELECT in save_recipe (app.py lines 202-205): the first ingredient
row, in rowid order, whose name matches case-insensitively. -/
def findIngredientByName (db : List Ingredient) (n : String) :
    Option Ingredient :=
  db.find? (fun r => lowerStr r.name = lowerStr n)

/-- The upsert in add_ingredient (app.py lines 132-143): INSERT with ON
CONFLICT(name) DO UPDATE.  The name column is TEXT UNIQUE under SQLite's
default binary collation, so the conflict fires on a case-sensitive exact
match only: a matching row keeps its id and name and receives the new
quantity, unit and price, otherwise a fresh row is appended. -/
def upsertIngredient (db : List Ingredient) (nextId : ℕ) (name : String)
    (ap_quantity : ℚ) (ap_unit : String) (ap_price : ℚ) : List Ingredient :=
  if db.any (fun r => r.name = name) then
    db.map (fun r =>
      if r.name = name then
        { r with
            ap_quantity := ap_quantity
            ap_unit := ap_unit
            ap_price := ap_price }
      else r)
  else db ++ [⟨nextId, name, ap_quantity, ap_unit, ap_price⟩]

/-- The caller-supplied fields of one recipe item (app.py lines 194-200),
after JSON extraction and price parsing. -/
structure ItemInput where
  ingredient : String
  ep_quantity : ℚ
  ep_unit : String
  yield_percent : ℚ
  ap_quantity : ℚ
  ap_unit : String
  ap_price : ℚ
  deriving DecidableEq, Repr

/-- One row of the recipe_items table as built in save_recipe (app.py lines
234-248): the snapshot of the inputs together with the derived costs. -/
structure ItemSnapshot where
  ingredient_id : ℕ
  ingredient_name : String
  ep_quantity : ℚ
  ep_unit : String
  yield_percent : ℚ
  ap_quantity : ℚ
  ap_unit : String
  ap_price : ℚ
  ap_cost_per_unit : ℚ
  ep_cost_per_unit : ℚ
  extended_cost : ℚ
  deriving DecidableEq, Repr

/-- One iteration of the item loop in save_recipe (app.py lines 193-248):
resolve the ingredient by case-insensitive name; for an existing row its
stored AP quantity, unit and price replace the caller's before anything is
computed, while a missing ingredient is inserted from the caller's AP
fields; the line costs are then computed and snapshotted.  An error leaves
the table unchanged (the enclosing transaction rolls back). -/
def processRecipeItem (db : List Ingredient) (nextId : ℕ) (item : ItemInput) :
    Except Err (List Ingredient × ℕ × ItemSnapshot) :=
  let name := pyStrip item.ingredient
  match findIngredientByName db name with
  | some ing =>
    match computeLineItem item.ep_quantity item.ep_unit item.yield_percent
        ing.ap_quantity ing.ap_unit ing.ap_price with
    | .error e => .error e
    | .ok c =>
      .ok (db, nextId,
        ⟨ing.id, name, item.ep_quantity, item.ep_unit, item.yield_percent,
          ing.ap_quantity, ing.ap_unit, ing.ap_price,
          c.ap_cost_per_unit, c.ep_cost_per_unit, c.extended_cost⟩)
  | none =>
    match computeLineItem item.ep_quantity item.ep_unit item.yield_percent
        item.ap_quantity item.ap_unit item.ap_price with
    | .error e => .error e
    | .ok c =>
      .ok (db ++ [⟨nextId, name, item.ap_quantity, item.ap_unit,
          item.ap_price⟩],
        nextId + 1,
        ⟨nextId, name, item.ep_quantity, item.ep_unit, item.yield_percent,
          item.ap_quantity, item.ap_unit, item.ap_price,
          c.ap_cost_per_unit, c.ep_cost_per_unit, c.extended_cost⟩)

/-- C5: resolving a line item against an existing ingredient (matched
case-insensitively) takes the stored AP quantity, unit and price for both
the cost computation and the persisted snapshot, the caller-supplied AP
values being ignored entirely; with no match, a new ingredient is created
from the caller-supplied AP fields, which also feed the snapshot. -/
theorem ingredient_resolution_policy :
    (∀ (db : List Ingredient) (nextId : ℕ) (item : ItemInput)
        (ing : Ingredient) (out : List Ingredient × ℕ × ItemSnapshot),
      findIngredientByName db (pyStrip item.ingredient) = some ing →
      processRecipeItem db nextId item = .ok out →
      out.1 = db ∧ out.2.1 = nextId ∧
      out.2.2.ap_quantity = ing.ap_quantity ∧
      out.2.2.ap_unit = ing.ap_unit ∧
      out.2.2.ap_price = ing.ap_price ∧
      out.2.2.ingredient_id = ing.id ∧
      computeLineItem item.ep_quantity item.ep_unit item.yield_percent
          ing.ap_quantity ing.ap_unit ing.ap_price =
        .ok ⟨out.2.2.ap_cost_per_unit, out.2.2.ep_cost_per_unit,
          out.2.2.extended_cost⟩) ∧
    (∀ (db : List Ingredient) (nextId : ℕ) (item : ItemInput)
        (ing : Ingredient) (q p : ℚ) (u : String),
      findIngredientByName db (pyStrip item.ingredient) = some ing →
      processRecipeItem db nextId
          { item with ap_quantity := q, ap_unit := u, ap_price := p } =
        processRecipeItem db nextId item) ∧
    (∀ (db : List Ingredient) (nextId : ℕ) (item : ItemInput)
        (out : List Ingredient × ℕ × ItemSnapshot),
      findIngredientByName db (pyStrip item.ingredient) = none →
      processRecipeItem db nextId item = .ok out →
      out.1 = db ++ [⟨nextId, pyStrip item.ingredient, item.ap_quantity,
        item.ap_unit, item.ap_price⟩] ∧
      out.2.2.ap_quantity = item.ap_quantity ∧
      out.2.2.ap_unit = item.ap_unit ∧
      out.2.2.ap_price = item.ap_price ∧
      out.2.2.ingredient_id = nextId) := by
  refine ⟨?_, ?_, ?_⟩
  · intro db nextId item ing out hfind hok
    simp only [processRecipeItem, hfind] at hok
    cases hc : computeLineItem item.ep_quantity item.ep_unit
        item.yield_percent ing.ap_quantity ing.ap_unit ing.ap_price with
    | error e => rw [hc] at hok; simp at hok
    | ok c =>
      rw [hc] at hok
      simp only [Except.ok.injEq] at hok
      subst hok
      exact ⟨rfl, rfl, rfl, rfl, rfl, rfl, rfl⟩
  · intro db nextId item ing q p u hfind
    simp only [processRecipeItem, hfind]
  · intro db nextId item out hfind hok
    simp only [processRecipeItem, hfind] at hok
    cases hc : computeLineItem item.ep_quantity item.ep_unit
        item.yield_percent item.ap_quantity item.ap_unit item.ap_price with
    | error e => rw [hc] at hok; simp at hok
    | ok c =>
      rw [hc] at hok
      simp only [Except.ok.injEq] at hok
      subst hok
      exact ⟨rfl, rfl, rfl, rfl, rfl⟩

theorem processRecipeItem_flour_eval :
    processRecipeItem [⟨1, "Flour", 1, "pounds", 2⟩] 7
        ⟨"flour", 10, "ounces", 80, 5, "each", 9⟩ =
      .ok ([⟨1, "Flour", 1, "pounds", 2⟩], 7,
        ⟨1, "flour", 10, "ounces", 80, 1, "pounds", 2,
          0.125, 0.15625, 1.5625⟩) := by
  have hfind : findIngredientByName [⟨1, "Flour", 1, "pounds", 2⟩]
      (pyStrip "flour") = some ⟨1, "Flour", 1, "pounds", 2⟩ := rfl
  have hc : computeLineItem 10 "ounces" 80 1 "pounds" 2 =
      .ok ⟨0.125, 0.15625, 1.5625⟩ := by
    rw [computeLineItem_aux 10 "ounces" 80 1 "pounds" 2 16
      convert_one_pound_ounces (by norm_num) (by norm_num)]
    norm_num
  simp only [processRecipeItem, hfind, hc]
  rfl

/-- Witness for C5 at a concrete store and item. -/
theorem ingredient_resolution_policy_witness :
    (([⟨1, "Flour", 1, "pounds", 2⟩], 7,
        (⟨1, "flour", 10, "ounces", 80, 1, "pounds", 2, 0.125, 0.15625,
          1.5625⟩ : ItemSnapshot)) :
        List Ingredient × ℕ × ItemSnapshot).1 =
      [⟨1, "Flour", 1, "pounds", 2⟩] ∧
    (([⟨1, "Flour", 1, "pounds", 2⟩], 7,
        (⟨1, "flour", 10, "ounces", 80, 1, "pounds", 2, 0.125, 0.15625,
          1.5625⟩ : ItemSnapshot)) :
        List Ingredient × ℕ × ItemSnapshot).2.1 = 7 ∧
    (⟨1, "flour", 10, "ounces", 80, 1, "pounds", 2, 0.125, 0.15625,
        1.5625⟩ : ItemSnapshot).ap_quantity = 1 ∧
    (⟨1, "flour", 10, "ounces", 80, 1, "pounds", 2, 0.125, 0.15625,
        1.5625⟩ : ItemSnapshot).ap_unit = "pounds" ∧
    (⟨1, "flour", 10, "ounces", 80, 1, "pounds", 2, 0.125, 0.15625,
        1.5625⟩ : ItemSnapshot).ap_price = 2 ∧
    (⟨1, "flour", 10, "ounces", 80, 1, "pounds", 2, 0.125, 0.15625,
        1.5625⟩ : ItemSnapshot).ingredient_id = 1 ∧
    computeLineItem 10 "ounces" 80 1 "pounds" 2 =
      .ok ⟨0.125, 0.15625, 1.5625⟩ :=
  ingredient_resolution_policy.1 [⟨1, "Flour", 1, "pounds", 2⟩] 7
    ⟨"flour", 10, "ounces", 80, 5, "each", 9⟩ ⟨1, "Flour", 1, "pounds", 2⟩
    ([⟨1, "Flour", 1, "pounds", 2⟩], 7,
      ⟨1, "flour", 10, "ounces", 80, 1, "pounds", 2, 0.125, 0.15625, 1.5625⟩)
    rfl processRecipeItem_flour_eval

/-- C8 counterexample: the upsert conflict key is the binary UNIQUE name
column, so saving the same name in a different letter case appends a second
row instead of updating the existing one, even though the two names are
equal case-insensitively. -/
theorem upsert_case_counterexample :
    lowerStr "flour" = lowerStr "Flour" ∧
    upsertIngredient [⟨1, "Flour", 1, "each", 2⟩] 2 "flour" 3 "each" 4 =
      [⟨1, "Flour", 1, "each", 2⟩, ⟨2, "flour", 3, "each", 4⟩] ∧
    (upsertIngredient [⟨1, "Flour", 1, "each", 2⟩] 2 "flour" 3 "each" 4).length
      ≠ 1 := by
  have h : upsertIngredient [⟨1, "Flour", 1, "each", 2⟩] 2 "flour" 3 "each" 4 =
      [⟨1, "Flour", 1, "each", 2⟩, ⟨2, "flour", 3, "each", 4⟩] := rfl
  refine ⟨rfl, h, ?_⟩
  rw [h]
  simp

/-- C8 amended: ingredient names are unique case-sensitively: upserting a
name that exactly matches an existing row updates in place and adds no row,
upserting a name no existing row bears exactly (for example the same name
in another letter case) appends a fresh row, and after any upsert every row
bearing the saved name holds the just-saved quantity, unit and price. -/
theorem upsert_amended :
    (∀ (db : List Ingredient) (nextId : ℕ) (n : String) (q : ℚ) (u : String)
        (p : ℚ),
      (∃ r ∈ db, r.name = n) →
      (upsertIngredient db nextId n q u p).length = db.length) ∧
    (∀ (db : List Ingredient) (nextId : ℕ) (n : String) (q : ℚ) (u : String)
        (p : ℚ),
      (∀ r ∈ db, r.name ≠ n) →
      upsertIngredient db nextId n q u p = db ++ [⟨nextId, n, q, u, p⟩]) ∧
    (∀ (db : List Ingredient) (nextId : ℕ) (n : String) (q : ℚ) (u : String)
        (p : ℚ) (r : Ingredient),
      r ∈ upsertIngredient db nextId n q u p → r.name = n →
      r.ap_quantity = q ∧ r.ap_unit = u ∧ r.ap_price = p) := by
  refine ⟨?_, ?_, ?_⟩
  · intro db nextId n q u p h
    rcases h with ⟨r, hr, hname⟩
    have hany : db.any (fun r => r.name = n) = true :=
      List.any_eq_true.mpr ⟨r, hr, by simp [hname]⟩
    simp [upsertIngredient, hany]
  · intro db nextId n q u p h
    have hany : db.any (fun r => r.name = n) = false := by
      simp only [List.any_eq_false, decide_eq_true_eq]
      exact h
    simp [upsertIngredient, hany]
  · intro db nextId n q u p r hmem hname
    by_cases hany : db.any (fun r => r.name = n) = true
    · rw [upsertIngredient, if_pos hany] at hmem
      rcases List.mem_map.mp hmem with ⟨a, _, hfa⟩
      by_cases han : a.name = n
      · rw [if_pos han] at hfa
        subst hfa
        exact ⟨rfl, rfl, rfl⟩
      · rw [if_neg han] at hfa
        subst hfa
        exact absurd hname han
    · rw [upsertIngredient, if_neg hany] at hmem
      rcases List.mem_append.mp hmem with hmem | hmem
      · have : ¬ (db.any (fun r => r.name = n) = true) := hany
        rw [List.any_eq_true] at this
        exact absurd ⟨r, hmem, by simp [hname]⟩ this
      · rcases List.mem_singleton.mp hmem with rfl
        exact ⟨rfl, rfl, rfl⟩

/-- Witness for C8's amended parts at a concrete store. -/
theorem upsert_amended_witness :
    (upsertIngredient [⟨1, "Flour", 1, "each", 2⟩] 2 "Flour" 3 "each" 4).length
        = ([⟨1, "Flour", 1, "each", 2⟩] : List Ingredient).length ∧
    upsertIngredient [⟨1, "Flour", 1, "each", 2⟩] 2 "Sugar" 3 "each" 4 =
      [⟨1, "Flour", 1, "each", 2⟩] ++ [⟨2, "Sugar", 3, "each", 4⟩] :=
  ⟨upsert_amended.1 [⟨1, "Flour", 1, "each", 2⟩] 2 "Flour" 3 "each" 4
      ⟨⟨1, "Flour", 1, "each", 2⟩, by simp, rfl⟩,
    upsert_amended.2.1 [⟨1, "Flour", 1, "each", 2⟩] 2 "Sugar" 3 "each" 4
      (by intro r hr; rcases List.mem_singleton.mp hr with rfl; simp)⟩

end FoodCost
